import Mathlib

/-!
# simple-k8s-test-env: `ovf/rpctool` and `e2e/hack/keepalive`

A shallow embedding of the two command line tools of the repository.

* `Rpctool` embeds `ovf/rpctool/main.go`: the OVF property helpers
  `getOvfEnv`, `getValueInOvfEnv`, `setValueInOvfEnv` and the command
  dispatch of `main`.
* `Keepalive` embeds `e2e/hack/keepalive/keepalive.go`: the activity
  tracking writer `ioKeepAlive.Write`, one iteration of the monitor
  goroutine, and the exit status translation of `main`.

Library calls the tools delegate to (the guest RPC channel, the XML and
JSON codecs, `strings.EqualFold`, `Duration.Seconds`, `os.Stdout.Write`,
`WaitStatus.ExitStatus`, `os.Exit`) are parameters of the embedding; what a theorem
needs from them is an explicit hypothesis of that theorem.
-/

deriving instance DecidableEq for Except

namespace Rpctool

/-! ## Data model (`govmomi/ovf`, as far as `main.go` looks into it) -/

/-- One `ovf.EnvProperty`: the source reads and writes `Key` and `Value`. -/
structure EnvProperty where
  Key : String
  Value : String
  deriving DecidableEq, Repr

/-- The `ovf.PropertySection`: the source reads and replaces `Properties`. -/
structure PropertySection where
  Properties : List EnvProperty
  deriving DecidableEq, Repr

/-- The `ovf.Env`. `Property` is a pointer in the source (`nil` is `none`);
`Header` stands for everything outside the property section, which
`main.go` never inspects. -/
structure Env where
  Header : String
  Property : Option PropertySection
  deriving DecidableEq, Repr

/-- One call on the guest RPC channel, recorded in call order. -/
inductive Access where
  | get (key : String)
  | set (key val : String)
  deriving DecidableEq, Repr

/-- Library functions `main.go` calls, over an abstract channel state.

* `EqualFold` is `strings.EqualFold`;
* `ConfigString c key dflt` is `config.String(key, dflt)`;
* `SetString c key val` is `config.SetString(key, val)`: the returned error
  (`none` is `nil`) and the channel state afterwards;
* `Unmarshal` is `xml.Unmarshal` into an `ovf.Env`;
* `MarshalManual` is `ovf.Env.MarshalManual`;
* `EncodeJson`, `EncodeXml` are the indenting encoders writing to standard
  output (the text written, or the error);
* `DecodeJson`, `DecodeXml` are the decoders of `set.ovf VAL`. -/
structure Extern (Config : Type) where
  EqualFold : String → String → Bool
  ConfigString : Config → String → String → Except String String
  SetString : Config → String → String → Option String × Config
  Unmarshal : String → Except String Env
  MarshalManual : Env → String
  EncodeJson : Env → Except String String
  EncodeXml : Env → Except String String
  DecodeJson : String → Except String Env
  DecodeXml : String → Except String Env

/-- The `*rpcvmx.Config` handle together with the record of the calls made
through it. -/
structure Guest (Config : Type) where
  config : Config
  accesses : List Access

variable {Config : Type}

/-- The call `config.String(key, dflt)`, recorded. -/
def guestString (ext : Extern Config) (g : Guest Config) (key dflt : String) :
    Except String String × Guest Config :=
  (ext.ConfigString g.config key dflt,
    { g with accesses := g.accesses ++ [Access.get key] })

/-- The call `config.SetString(key, val)`, recorded. -/
def guestSetString (ext : Extern Config) (g : Guest Config) (key val : String) :
    Option String × Guest Config :=
  ((ext.SetString g.config key val).1,
    { config := (ext.SetString g.config key val).2,
      accesses := g.accesses ++ [Access.set key val] })

/-! ## `getOvfEnv`, `getValueInOvfEnv`, `setValueInOvfEnv` -/

/-- `getOvfEnv` (main.go 289-301). -/
def getOvfEnv (ext : Extern Config) (g : Guest Config) :
    Except String Env × Guest Config :=
  match guestString ext g "guestinfo.ovfEnv" "" with
  | (.error err, g1) => (.error ("failed to get guestinfo.ovfEnv: " ++ err), g1)
  | (.ok ovfEnvSz, g1) =>
    match ext.Unmarshal ovfEnvSz with
    | .error err => (.error ("failed to unmarshall guestinfo.ovfEnv: " ++ err), g1)
    | .ok ovfEnv => (.ok ovfEnv, g1)

/-- The `for _, prop := range ovfEnv.Property.Properties` loop of
`getValueInOvfEnv` (main.go 314-320), with the `return "", nil` after it. -/
def getValueLoop (ext : Extern Config) (key : String) : List EnvProperty → String
  | [] => ""
  | prop :: rest =>
    if ext.EqualFold prop.Key key then prop.Value else getValueLoop ext key rest

/-- `getValueInOvfEnv` (main.go 303-321). -/
def getValueInOvfEnv (ext : Extern Config) (key : String) (g : Guest Config) :
    Except String String × Guest Config :=
  match getOvfEnv ext g with
  | (.error err, g1) => (.error err, g1)
  | (.ok ovfEnv, g1) =>
    match ovfEnv.Property with
    | none => (.ok "", g1)
    | some section_ => (.ok (getValueLoop ext key section_.Properties), g1)

/-- The `for _, p := range ovfEnv.Property.Properties` loop of
`setValueInOvfEnv` (main.go 338-348): the remaining input, and the loop
variables `props` and `keyFound`. -/
def setValueLoop (ext : Extern Config) (key val : String) :
    List EnvProperty → List EnvProperty → Bool → List EnvProperty × Bool
  | [], props, keyFound => (props, keyFound)
  | p :: rest, props, keyFound =>
    if ext.EqualFold p.Key key then
      setValueLoop ext key val rest (props ++ [{ Key := p.Key, Value := val }]) true
    else
      setValueLoop ext key val rest (props ++ [p]) keyFound

/-- The value assigned to `ovfEnv.Property.Properties` (main.go 334-358):
the loop from `props = nil`, `keyFound = false`, then the append of a new
property when the key was not found. -/
def setValueProps (ext : Extern Config) (key val : String)
    (properties : List EnvProperty) : List EnvProperty :=
  let r := setValueLoop ext key val properties [] false
  if !r.2 then r.1 ++ [{ Key := key, Value := val }] else r.1

/-- `setValueInOvfEnv` (main.go 323-364): the returned error (`none` is
`nil`) and the channel afterwards. -/
def setValueInOvfEnv (ext : Extern Config) (key val : String) (g : Guest Config) :
    Option String × Guest Config :=
  match getOvfEnv ext g with
  | (.error err, g1) => (some err, g1)
  | (.ok ovfEnv, g1) =>
    match ovfEnv.Property with
    | none => (none, g1)
    | some section_ =>
      guestSetString ext g1 "guestinfo.ovfEnv"
        (ext.MarshalManual
          { ovfEnv with
            Property := some { section_ with
              Properties := setValueProps ext key val section_.Properties } })

/-! ## `main`: command validation and dispatch -/

/-- What one run of the tool leaves behind: the status given to `os.Exit`
(0 when `main` returns), the lines written to standard output and standard
error, and the guest channel with its call record. -/
structure Outcome (Config : Type) where
  exit : Int
  stdout : List String
  stderr : List String
  guest : Guest Config

/-- The text `flag.Usage` prints to standard error (main.go 45-71). -/
def usageText : String := "usage: rpctool [FLAGS] COMMAND [ARGS]"

/-- `flag.Arg(i)`: the i-th remaining argument, the empty string when there
is none. -/
def flagArg (args : List String) (i : Nat) : String := args.getD i ""

/-- `readStdin` (main.go 281-287) over the result of `ioutil.ReadAll`. -/
def readStdin (stdin : Except String String) : Except String String :=
  match stdin with
  | .error err => .error ("error reading stdin: " ++ err)
  | .ok buf => .ok buf

/-- Command name validation (main.go 86-100): the canonical name, or `none`
for the `invalid command` branch. -/
def validateCommand (ext : Extern Config) (cmdName : String) : Option String :=
  if ext.EqualFold cmdName "get" then some "get"
  else if ext.EqualFold cmdName "set" then some "set"
  else if ext.EqualFold cmdName "get.ovf" then some "get.ovf"
  else if ext.EqualFold cmdName "set.ovf" then some "set.ovf"
  else none

/-- OVF format validation (main.go 102-112): the canonical format, or `none`
for the `invalid ovf.format` branch. -/
def validateFormat (ext : Extern Config) (ovfFormat : String) : Option String :=
  if ext.EqualFold ovfFormat "json" then some "json"
  else if ext.EqualFold ovfFormat "xml" then some "xml"
  else none

/-- The exit taken on a bad argument count (main.go 121-126, 139-144,
202-207, 263-268). -/
def invalidArgs (cmdName : String) (g : Guest Config) : Outcome Config :=
  { exit := 1, stdout := [],
    stderr := ["invalid number of arguments for " ++ cmdName, usageText], guest := g }

/-- `case "get"` (main.go 119-136). -/
def caseGet (ext : Extern Config) (args : List String) (g : Guest Config) :
    Outcome Config :=
  if args.length < 2 then invalidArgs "get" g
  else
    let key := "guestinfo." ++ flagArg args 1
    match guestString ext g key "" with
    | (.error err, g1) =>
      { exit := 1, stdout := [], stderr := ["failed to get " ++ key ++ ": " ++ err],
        guest := g1 }
    | (.ok val, g1) =>
      { exit := 0, stdout := if val ≠ "" then [val] else [], stderr := [], guest := g1 }

/-- `case "set"` (main.go 137-159). -/
def caseSet (ext : Extern Config) (args : List String) (stdin : Except String String)
    (g : Guest Config) : Outcome Config :=
  if args.length < 3 then invalidArgs "set" g
  else
    let key := "guestinfo." ++ flagArg args 1
    let val := flagArg args 2
    let valOrErr := if val = "-" then readStdin stdin else .ok val
    match valOrErr with
    | .error err => { exit := 1, stdout := [], stderr := [err], guest := g }
    | .ok val =>
      match guestSetString ext g key val with
      | (some err, g1) =>
        { exit := 1, stdout := [], stderr := ["failed to set " ++ key ++ ": " ++ err],
          guest := g1 }
      | (none, g1) => { exit := 0, stdout := [], stderr := [], guest := g1 }

/-- `case "get.ovf"` (main.go 160-208). -/
def caseGetOvf (ext : Extern Config) (ovfFormat : String) (args : List String)
    (g : Guest Config) : Outcome Config :=
  if args.length = 1 then
    match getOvfEnv ext g with
    | (.error err, g1) => { exit := 1, stdout := [], stderr := [err], guest := g1 }
    | (.ok ovfEnv, g1) =>
      let enc : Option (Env → Except String String) :=
        if ovfFormat = "json" then some ext.EncodeJson
        else if ovfFormat = "xml" then some ext.EncodeXml
        else none
      match enc with
      | none =>
        { exit := 1, stdout := [], stderr := ["invalid ovf.format: " ++ ovfFormat],
          guest := g1 }
      | some encode =>
        match encode ovfEnv with
        | .error err =>
          { exit := 1, stdout := [],
            stderr := ["failed to encode OVF environment: " ++ err], guest := g1 }
        | .ok text => { exit := 0, stdout := [text], stderr := [], guest := g1 }
  else if args.length = 2 then
    let key := flagArg args 1
    match getValueInOvfEnv ext key g with
    | (.error err, g1) =>
      { exit := 1, stdout := [], stderr := ["failed to get " ++ key ++ ": " ++ err],
        guest := g1 }
    | (.ok val, g1) =>
      { exit := 0, stdout := if val ≠ "" then [val] else [], stderr := [], guest := g1 }
  else invalidArgs "get.ovf" g

/-- `case "set.ovf"` (main.go 209-269). With `VAL` equal to `-` the decoder
reads the standard input stream. -/
def caseSetOvf (ext : Extern Config) (ovfFormat : String) (args : List String)
    (stdin : Except String String) (g : Guest Config) : Outcome Config :=
  if args.length = 2 then
    let val := flagArg args 1
    let rdr : Except String String := if val = "-" then stdin else .ok val
    let dec : Option (String → Except String Env) :=
      if ovfFormat = "json" then some ext.DecodeJson
      else if ovfFormat = "xml" then some ext.DecodeXml
      else none
    match dec with
    | none =>
      { exit := 1, stdout := [], stderr := ["invalid ovf.format: " ++ ovfFormat],
        guest := g }
    | some decode =>
      match rdr.bind decode with
      | .error err =>
        { exit := 1, stdout := [],
          stderr := ["failed to decode OVF environment as " ++ ovfFormat ++ ": " ++ err],
          guest := g }
      | .ok ovfEnv =>
        let key := "guestinfo.ovfEnv"
        match guestSetString ext g key (ext.MarshalManual ovfEnv) with
        | (some err, g1) =>
          { exit := 1, stdout := [], stderr := ["failed to set " ++ key ++ ": " ++ err],
            guest := g1 }
        | (none, g1) => { exit := 0, stdout := [], stderr := [], guest := g1 }
  else if args.length = 3 then
    let key := flagArg args 1
    let val := flagArg args 2
    let valOrErr := if val = "-" then readStdin stdin else .ok val
    match valOrErr with
    | .error err => { exit := 1, stdout := [], stderr := [err], guest := g }
    | .ok val =>
      match setValueInOvfEnv ext key val g with
      | (some err, g1) =>
        { exit := 1, stdout := [], stderr := ["failed to set " ++ key ++ ": " ++ err],
          guest := g1 }
      | (none, g1) => { exit := 0, stdout := [], stderr := [], guest := g1 }
  else invalidArgs "set.ovf" g

/-- `main` (main.go 33-271). `isVM` is the result of
`vmcheck.IsVirtualWorld`, `ovfFormat` the value of the `ovf.format` flag
after `flag.Parse`, `args` the remaining arguments `flag.Args()`, `stdin`
the result of reading the standard input stream to its end. -/
def main (ext : Extern Config) (isVM : Except String Bool) (ovfFormat : String)
    (args : List String) (stdin : Except String String) (g : Guest Config) :
    Outcome Config :=
  match isVM with
  | .error err =>
    { exit := 1, stdout := [], stderr := ["failed to discover virtual world: " ++ err],
      guest := g }
  | .ok false =>
    { exit := 1, stdout := [], stderr := ["must be run inside a virtual machine"],
      guest := g }
  | .ok true =>
    if args.length < 1 then
      { exit := 1, stdout := [], stderr := ["COMMAND is required", usageText], guest := g }
    else
      match validateCommand ext (flagArg args 0) with
      | none =>
        { exit := 1, stdout := [],
          stderr := ["invalid command: " ++ flagArg args 0, usageText], guest := g }
      | some cmdName =>
        match validateFormat ext ovfFormat with
        | none =>
          { exit := 1, stdout := [],
            stderr := ["invalid ovf.format: " ++ ovfFormat, usageText], guest := g }
        | some ovfFormat =>
          if cmdName = "get" then caseGet ext args g
          else if cmdName = "set" then caseSet ext args stdin g
          else if cmdName = "get.ovf" then caseGetOvf ext ovfFormat args g
          else if cmdName = "set.ovf" then caseSetOvf ext ovfFormat args stdin g
          else { exit := 0, stdout := [], stderr := [], guest := g }

/-- The command forms of the usage text, with the format spelled exactly:
`get KEY`, `set KEY VAL`, `get.ovf`, `get.ovf KEY`, `set.ovf VAL`,
`set.ovf KEY VAL`, the command name compared with `EqualFold`. -/
def documentedForm (ext : Extern Config) (ovfFormat : String) (args : List String) :
    Prop :=
  (ovfFormat = "json" ∨ ovfFormat = "xml") ∧
    ((ext.EqualFold (flagArg args 0) "get" = true ∧ args.length = 2) ∨
      (ext.EqualFold (flagArg args 0) "set" = true ∧ args.length = 3) ∨
      (ext.EqualFold (flagArg args 0) "get.ovf" = true ∧
        (args.length = 1 ∨ args.length = 2)) ∨
      (ext.EqualFold (flagArg args 0) "set.ovf" = true ∧
        (args.length = 2 ∨ args.length = 3)))

/-- The command forms `main` lets through: as `documentedForm`, with the
format compared with `EqualFold` too, and with any number of further
arguments after `get KEY` and `set KEY VAL`. -/
def acceptedForm (ext : Extern Config) (ovfFormat : String) (args : List String) :
    Prop :=
  (ext.EqualFold ovfFormat "json" = true ∨ ext.EqualFold ovfFormat "xml" = true) ∧
    ((ext.EqualFold (flagArg args 0) "get" = true ∧ 2 ≤ args.length) ∨
      (ext.EqualFold (flagArg args 0) "set" = true ∧ 3 ≤ args.length) ∨
      (ext.EqualFold (flagArg args 0) "get.ovf" = true ∧
        (args.length = 1 ∨ args.length = 2)) ∨
      (ext.EqualFold (flagArg args 0) "set.ovf" = true ∧
        (args.length = 2 ∨ args.length = 3)))

/-! ## An in-memory instance of the library functions

Used to run the embedding on concrete inputs. -/

/-- ASCII case folding comparison: the behaviour of `strings.EqualFold` on
ASCII strings. -/
def asciiEqualFold (s t : String) : Bool :=
  s.data.map Char.toLower == t.data.map Char.toLower

/-- Renders an environment as text: the header, then one element per
property inside a property section when there is one. -/
def renderEnv (e : Env) : String :=
  e.Header ++
    match e.Property with
    | none => ""
    | some ps =>
      "<PropertySection>" ++
        String.join (ps.Properties.map fun p =>
          "<Property key=\"" ++ p.Key ++ "\" value=\"" ++ p.Value ++ "\"/>") ++
        "</PropertySection>"

/-- An environment without a property section. -/
def envNoSection : Env := { Header := "<Environment/>", Property := none }

/-- An environment with two properties. -/
def envTwo : Env :=
  { Header := "<Environment>",
    Property := some { Properties := [⟨"Hostname", "a"⟩, ⟨"dns", "b"⟩] } }

/-- The environment `envTwo` after `hostname` was set to `c`. -/
def envTwoSet : Env :=
  { Header := "<Environment>",
    Property := some { Properties := [⟨"Hostname", "c"⟩, ⟨"dns", "b"⟩] } }

/-- The environment `envTwo` after the new key `ntp` was set to `d`. -/
def envTwoNew : Env :=
  { Header := "<Environment>",
    Property := some { Properties := [⟨"Hostname", "a"⟩, ⟨"dns", "b"⟩, ⟨"ntp", "d"⟩] } }

/-- The documents the in-memory decoder knows. -/
def knownEnvs : List Env := [envNoSection, envTwo, envTwoSet, envTwoNew]

/-- Decodes a document by looking it up among the renderings of
`knownEnvs`. -/
def lookupEnv (doc : String) : Except String Env :=
  match knownEnvs.find? (fun e => renderEnv e == doc) with
  | some e => .ok e
  | none => .error "unknown document"

/-- The in-memory instance: the channel is an association list, newest
binding first; reads of an unbound key give the default; writes never
fail. -/
def memExtern : Extern (List (String × String)) where
  EqualFold := asciiEqualFold
  ConfigString := fun c key dflt =>
    match c.find? (fun kv => kv.1 == key) with
    | some kv => .ok kv.2
    | none => .ok dflt
  SetString := fun c key val => (none, (key, val) :: c)
  Unmarshal := lookupEnv
  MarshalManual := renderEnv
  EncodeJson := fun e => .ok (renderEnv e)
  EncodeXml := fun e => .ok (renderEnv e)
  DecodeJson := lookupEnv
  DecodeXml := lookupEnv

/-- A guest whose `guestinfo.ovfEnv` holds the rendering of `e`, with no
call made yet. -/
def guestWith (e : Env) : Guest (List (String × String)) :=
  { config := [("guestinfo.ovfEnv", renderEnv e)], accesses := [] }

end Rpctool

namespace Keepalive

/-! ## Data model -/

/-- A Go `[]byte`. -/
abbrev Bytes := List (Fin 256)

/-- The flag values after `flag.Parse` (keepalive.go 20-39), durations in
nanoseconds as in `time.Duration`. -/
structure Settings where
  quietTolerance : Int
  sleepFor : Int
  keepAliveChars : Bytes

/-- Library functions `keepalive.go` calls.

* `Seconds` is `Duration.Seconds`, from nanoseconds to the value of the
  `float64` it returns;
* `StdoutWrite out b` is the result `(n, err)` of `os.Stdout.Write(b)` after
  the chunks `out` were written;
* `ExitStatus` is `syscall.WaitStatus.ExitStatus`;
* `OsExit code` is the exit status the parent process sees after
  `os.Exit(code)`. -/
structure Lib where
  Seconds : Int → ℚ
  StdoutWrite : List Bytes → Bytes → Int × Option String
  ExitStatus : Nat → Int
  OsExit : Int → Int

/-- The mutable state: the package variable `lastWrite` (a clock reading in
nanoseconds) and the chunks handed to `os.Stdout.Write` so far, oldest
first. -/
structure State where
  lastWrite : Int
  stdout : List Bytes
  deriving DecidableEq, Repr

/-- The state at start: `lastWrite = time.Now()` (keepalive.go 82), nothing
written. -/
def initState (start : Int) : State := { lastWrite := start, stdout := [] }

/-! ## The writer and the monitor -/

/-- `ioKeepAlive.Write` (keepalive.go 89-94) called at clock reading `now`:
the returned `(n, err)` and the state afterwards. -/
def ioKeepAliveWrite (lib : Lib) (st : State) (now : Int) (b : Bytes) :
    (Int × Option String) × State :=
  let st1 : State := { st with lastWrite := now }
  (lib.StdoutWrite st1.stdout b, { st1 with stdout := st1.stdout ++ [b] })

/-- The test of the monitor goroutine (keepalive.go 56-58) at clock reading
`now`: `time.Since(lastWrite).Seconds() >= quietToleranceSecs`. -/
def quietTooLong (lib : Lib) (cfg : Settings) (st : State) (now : Int) : Bool :=
  let secsSinceLastWrite := lib.Seconds (now - st.lastWrite)
  let quietToleranceSecs := lib.Seconds cfg.quietTolerance
  decide (secsSinceLastWrite ≥ quietToleranceSecs)

/-- One iteration of the monitor goroutine (keepalive.go 54-62), up to the
sleep, at clock reading `now`. -/
def monitorTick (lib : Lib) (cfg : Settings) (st : State) (now : Int) : State :=
  if quietTooLong lib cfg st now then
    { st with stdout := st.stdout ++ [cfg.keepAliveChars] }
  else st

/-- What can happen while the child runs: the child writes a chunk to its
standard output, or the monitor goroutine runs one iteration; each at a
clock reading. -/
inductive Event where
  | write (now : Int) (b : Bytes)
  | tick (now : Int)
  deriving DecidableEq, Repr

/-- The clock reading of an event. -/
def Event.time : Event → Int
  | .write now _ => now
  | .tick now => now

/-- One step of the wrapper. -/
def step (lib : Lib) (cfg : Settings) (st : State) : Event → State
  | .write now b => (ioKeepAliveWrite lib st now b).2
  | .tick now => monitorTick lib cfg st now

/-- A run: the events in the order they happen. -/
def run (lib : Lib) (cfg : Settings) (st : State) (events : List Event) : State :=
  events.foldl (step lib cfg) st

/-- The clock never goes back along the events: an event's clock reading is
at most that of every later event. -/
def clockOk (events : List Event) : Prop :=
  List.Pairwise (fun a b => a.time ≤ b.time) events

/-- The chunks the child wrote, in order. -/
def childWrites : List Event → List Bytes
  | [] => []
  | .write _ b :: rest => b :: childWrites rest
  | .tick _ :: rest => childWrites rest

/-- The gaps between child writes are all below `T`: from `last` (the start,
or the previous child write) to the next child write, and so on. Ticks are
skipped. -/
def writeGapsBelow (T : Int) (last : Int) : List Event → Prop
  | [] => True
  | .write now _ :: rest => now - last < T ∧ writeGapsBelow T now rest
  | .tick _ :: rest => writeGapsBelow T last rest

/-- As `writeGapsBelow`, and the run ends less than `T` after the last child
write: `cur` is the clock reading reached so far. -/
def writeGapsBelowToEnd (T : Int) (last cur : Int) : List Event → Prop
  | [] => cur - last < T
  | .write now _ :: rest => now - last < T ∧ writeGapsBelowToEnd T now now rest
  | .tick now :: rest => writeGapsBelowToEnd T last now rest

/-- The chunk list `out` is the chunk list `cs` with zero or more whole
`marker` chunks inserted, nothing else changed. -/
inductive Inserted (marker : Bytes) : List Bytes → List Bytes → Prop where
  | nil : Inserted marker [] []
  | keep (b : Bytes) {cs out : List Bytes} :
      Inserted marker cs out → Inserted marker (b :: cs) (b :: out)
  | insert {cs out : List Bytes} :
      Inserted marker cs out → Inserted marker cs (marker :: out)

/-- The clock reading of the k-th iteration of the monitor goroutine when
the iterations are exactly `sleepFor` apart from the first one at `start`. -/
def tickTime (cfg : Settings) (start : Int) (k : Nat) : Int :=
  start + k * cfg.sleepFor

/-! ## Exit status -/

/-- What `cmd.Run()` returned when it is not `nil`: an `*exec.ExitError`
with its wait status, or any other error. -/
inductive RunError where
  | exitError (ws : Nat)
  | other (msg : String)
  deriving DecidableEq, Repr

/-- The exit status of the wrapper after `cmd.Run()` (keepalive.go 65-72):
`runErr` is what it returned; on `nil` (`none`) `main` returns and the status
is 0, else it is what `os.Exit` leaves of its argument. -/
def runExit (lib : Lib) (runErr : Option RunError) : Int :=
  match runErr with
  | some (.exitError ws) => lib.OsExit (lib.ExitStatus ws)
  | some (.other _) => lib.OsExit 1
  | none => 0

/-- The exit status of `main` (keepalive.go 41-44, 65-72): `nArg` is
`flag.NArg()`. -/
def mainExit (lib : Lib) (nArg : Nat) (runErr : Option RunError) : Int :=
  if nArg = 0 then lib.OsExit 1 else runExit lib runErr

/-! ## An instance of the library functions

Used to run the embedding on concrete inputs. -/

/-- `WaitStatus.Exited` on Linux: the low seven bits are zero. -/
def linuxExited (ws : Nat) : Bool := ws % 128 == 0

/-- `WaitStatus.ExitStatus` on Linux: `-1` unless exited, else bits 8 to 15. -/
def linuxExitStatus (ws : Nat) : Int :=
  if !linuxExited ws then -1 else ((ws / 256 % 256 : Nat) : Int)

/-- The status Linux keeps of `exit(code)`: the low eight bits. -/
def linuxOsExit (code : Int) : Int := code % 256

/-- Exact seconds, every write succeeds in full, Linux wait and exit
statuses. -/
def exactLib : Lib where
  Seconds := fun d => (d : ℚ) / 1000000000
  StdoutWrite := fun _ b => ((b.length : Int), none)
  ExitStatus := linuxExitStatus
  OsExit := linuxOsExit

/-! ### `Duration.Seconds` in `float64` arithmetic

A `float64` value is kept as a pair `(m, e)` standing for `m * 2 ^ e`, for
values that are zero or in the normal range, as all values below are for a
duration that fits an `int64`. -/

/-- The number of binary digits of `n`, by halving; `fuel` bounds the
number of halvings and `n` itself is enough. -/
def bitLength : Nat → Nat → Nat
  | 0, _ => 0
  | fuel + 1, n => if n = 0 then 0 else bitLength fuel (n / 2) + 1

/-- The integer nearest to `n / d`, a tie going to the even one. -/
def roundHalfEven (n d : Nat) : Nat :=
  let q := n / d
  let r := n % d
  if 2 * r < d then q
  else if d < 2 * r then q + 1
  else if q % 2 = 0 then q else q + 1

/-- The `float64` nearest to `n / d`, ties to even. The exponent `e` of the
leading bit of `n / d` is the difference `e0` of the bit lengths or one
less; the quotient is rounded to a multiple of `2 ^ (e - 52)`, which leaves
53 significant bits. -/
def float64Round (n d : Nat) : Nat × Int :=
  if n = 0 then (0, 0)
  else
    let e0 : Int := (bitLength n n : Int) - (bitLength d d : Int)
    let e : Int := if d * 2 ^ e0.toNat ≤ n * 2 ^ (-e0).toNat then e0 else e0 - 1
    let shift : Int := e - 52
    (roundHalfEven (n * 2 ^ (-shift).toNat) (d * 2 ^ shift.toNat), shift)

/-- The `float64` sum `a + b`: the exact sum, rounded. -/
def float64Add (a b : Nat × Int) : Nat × Int :=
  let e : Int := min a.2 b.2
  let n : Nat := a.1 * 2 ^ (a.2 - e).toNat + b.1 * 2 ^ (b.2 - e).toNat
  float64Round (n * 2 ^ e.toNat) (2 ^ (-e).toNat)

/-- The `float64` quotient `a / b`: the exact quotient, rounded. -/
def float64Div (a b : Nat × Int) : Nat × Int :=
  float64Round (a.1 * 2 ^ a.2.toNat * 2 ^ (-b.2).toNat)
    (b.1 * 2 ^ b.2.toNat * 2 ^ (-a.2).toNat)

/-- `Duration.Seconds` of a duration of `d ≥ 0` nanoseconds:
`sec := d / Second; nsec := d % Second;
return float64(sec) + float64(nsec)/1e9`. -/
def secondsBits (d : Nat) : Nat × Int :=
  let sec := d / 1000000000
  let nsec := d % 1000000000
  float64Add (float64Round sec 1)
    (float64Div (float64Round nsec 1) (float64Round 1000000000 1))

/-- The rational a pair `(m, e)` stands for. -/
def float64Value (x : Nat × Int) : ℚ := (x.1 : ℚ) * 2 ^ x.2

/-- `Duration.Seconds` in `float64` arithmetic. Go's `/` and `%` truncate
towards zero and rounding is symmetric, so a negative duration gives the
negated value of its absolute value. -/
def goSeconds (d : Int) : ℚ :=
  if d < 0 then - float64Value (secondsBits (-d).toNat)
  else float64Value (secondsBits d.toNat)

/-- As `exactLib`, with `Duration.Seconds` in `float64` arithmetic. -/
def goLib : Lib where
  Seconds := goSeconds
  StdoutWrite := fun _ b => ((b.length : Int), none)
  ExitStatus := linuxExitStatus
  OsExit := linuxOsExit

/-- The default flag values: five minutes, twenty seconds, a dot and a
newline. -/
def defaultSettings : Settings :=
  { quietTolerance := 300000000000, sleepFor := 20000000000, keepAliveChars := [46, 10] }

/-- Small settings for examples: tolerance 10, sleep 10, marker one dot. -/
def smallSettings : Settings :=
  { quietTolerance := 10, sleepFor := 10, keepAliveChars := [46] }

/-- The default settings with the tolerance raised to 5000 hours. -/
def longSettings : Settings :=
  { quietTolerance := 18000000000000000, sleepFor := 20000000000,
    keepAliveChars := [46, 10] }

/-- Settings with a zero sleep: tolerance 10, sleep 0, marker one dot. -/
def zeroSleepSettings : Settings :=
  { quietTolerance := 10, sleepFor := 0, keepAliveChars := [46] }

end Keepalive

/-! # Theorems -/

namespace Rpctool

variable {Config : Type}

/-! ## The property list loops -/

theorem getValueLoop_first (ext : Extern Config) (key : String)
    (pre : List EnvProperty) (p : EnvProperty) (post : List EnvProperty)
    (hpre : ∀ q ∈ pre, ext.EqualFold q.Key key = false)
    (hp : ext.EqualFold p.Key key = true) :
    getValueLoop ext key (pre ++ p :: post) = p.Value := by
  induction pre with
  | nil => simp [getValueLoop, hp]
  | cons q pre ih =>
    have hq : ext.EqualFold q.Key key = false := hpre q (List.mem_cons_self _ _)
    have hrest : ∀ r ∈ pre, ext.EqualFold r.Key key = false :=
      fun r hr => hpre r (List.mem_cons_of_mem _ hr)
    simp [getValueLoop, hq, ih hrest]

theorem getValueLoop_none (ext : Extern Config) (key : String)
    (ps : List EnvProperty) (h : ∀ q ∈ ps, ext.EqualFold q.Key key = false) :
    getValueLoop ext key ps = "" := by
  induction ps with
  | nil => rfl
  | cons q ps ih =>
    have hq : ext.EqualFold q.Key key = false := h q (List.mem_cons_self _ _)
    have hrest : ∀ r ∈ ps, ext.EqualFold r.Key key = false :=
      fun r hr => h r (List.mem_cons_of_mem _ hr)
    simp [getValueLoop, hq, ih hrest]

/-- The loop of `setValueInOvfEnv` from any accumulator: it appends the
input with the value replaced in the matching properties, and the flag
records whether one matched. -/
theorem setValueLoop_eq (ext : Extern Config) (key val : String)
    (ps acc : List EnvProperty) (found : Bool) :
    setValueLoop ext key val ps acc found =
      (acc ++ ps.map (fun p =>
          if ext.EqualFold p.Key key then { Key := p.Key, Value := val } else p),
        found || ps.any (fun p => ext.EqualFold p.Key key)) := by
  induction ps generalizing acc found with
  | nil => simp [setValueLoop]
  | cons p ps ih =>
    by_cases hp : ext.EqualFold p.Key key = true
    · simp [setValueLoop, hp, ih]
    · have hp2 : ext.EqualFold p.Key key = false := by simpa using hp
      simp [setValueLoop, hp2, ih]

theorem setValueProps_eq (ext : Extern Config) (key val : String)
    (ps : List EnvProperty) :
    setValueProps ext key val ps =
      ps.map (fun p =>
          if ext.EqualFold p.Key key then { Key := p.Key, Value := val } else p) ++
        (if ps.any (fun p => ext.EqualFold p.Key key) then []
          else [{ Key := key, Value := val }]) := by
  unfold setValueProps
  rw [setValueLoop_eq]
  by_cases h : ps.any (fun p => ext.EqualFold p.Key key) = true
  · simp [h]
  · have h2 : ps.any (fun p => ext.EqualFold p.Key key) = false := by simpa using h
    simp [h2]

theorem getOvfEnv_guest (ext : Extern Config) (g : Guest Config) :
    (getOvfEnv ext g).2 =
      { g with accesses := g.accesses ++ [Access.get "guestinfo.ovfEnv"] } := by
  unfold getOvfEnv guestString
  cases ext.ConfigString g.config "guestinfo.ovfEnv" "" with
  | error e => rfl
  | ok sz =>
    cases hU : ext.Unmarshal sz with
    | error e => simp [hU]
    | ok env => simp [hU]

theorem getValueInOvfEnv_of_env (ext : Extern Config) (key : String) (g : Guest Config)
    (env : Env) (henv : (getOvfEnv ext g).1 = .ok env) :
    (getValueInOvfEnv ext key g).1 =
      .ok (match env.Property with
        | none => ""
        | some ps => getValueLoop ext key ps.Properties) := by
  unfold getValueInOvfEnv
  rcases h : getOvfEnv ext g with ⟨r, g1⟩
  rw [h] at henv
  simp only at henv
  subst henv
  cases hP : env.Property <;> simp [hP]

theorem setValueInOvfEnv_of_env (ext : Extern Config) (key val : String)
    (g : Guest Config) (env : Env) (ps : PropertySection)
    (henv : (getOvfEnv ext g).1 = .ok env) (hps : env.Property = some ps) :
    setValueInOvfEnv ext key val g =
      guestSetString ext (getOvfEnv ext g).2 "guestinfo.ovfEnv"
        (ext.MarshalManual
          { env with
            Property := some { Properties := setValueProps ext key val ps.Properties } }) := by
  unfold setValueInOvfEnv
  rcases h : getOvfEnv ext g with ⟨r, g1⟩
  rw [h] at henv
  simp only at henv
  subst henv
  simp [hps]

/-! ## C2 -/

/-- C2: `getValueInOvfEnv` looks the key up with `EqualFold`: on an
environment that was read, the result is the value of the first property, in
document order, whose key folds equal to the key asked for; it is the empty
string, without error, when no property matches or when the environment has
no property section. -/
theorem getValueInOvfEnv_first_match (ext : Extern Config) (key : String)
    (g : Guest Config) (env : Env) (henv : (getOvfEnv ext g).1 = .ok env) :
    (∀ ps, env.Property = some ps →
      ∀ pre p post, ps.Properties = pre ++ p :: post →
        (∀ q ∈ pre, ext.EqualFold q.Key key = false) →
        ext.EqualFold p.Key key = true →
        (getValueInOvfEnv ext key g).1 = .ok p.Value) ∧
    (∀ ps, env.Property = some ps →
      (∀ q ∈ ps.Properties, ext.EqualFold q.Key key = false) →
      (getValueInOvfEnv ext key g).1 = .ok "") ∧
    (env.Property = none → (getValueInOvfEnv ext key g).1 = .ok "") := by
  rw [getValueInOvfEnv_of_env ext key g env henv]
  refine ⟨?_, ?_, ?_⟩
  · intro ps hps pre p post hsplit hpre hp
    rw [hps]
    simp only
    rw [hsplit, getValueLoop_first ext key pre p post hpre hp]
  · intro ps hps hnone
    rw [hps]
    simp only
    rw [getValueLoop_none ext key _ hnone]
  · intro hnil
    rw [hnil]

/-- C2 at `get.ovf DNS` on the two-property environment: the first property
does not match, the second one, `dns`, does. -/
theorem getValueInOvfEnv_first_match_witness :
    (getValueInOvfEnv memExtern "DNS" (guestWith envTwo)).1 = .ok "b" :=
  (getValueInOvfEnv_first_match memExtern "DNS" (guestWith envTwo) envTwo
      (by decide)).1
    { Properties := [⟨"Hostname", "a"⟩, ⟨"dns", "b"⟩] } rfl
    [⟨"Hostname", "a"⟩] ⟨"dns", "b"⟩ [] rfl (by decide) (by decide)

/-! ## C3 -/

/-- C3: `setValueInOvfEnv` leaves the other properties alone. On an
environment with a property section it writes, under `guestinfo.ovfEnv`, the
environment with a property list `written` in which every property whose
key does not fold equal to the key keeps its position, key and value;
`written` is as long as the original list when some property matches, and
is the original list followed by the one new property when none does. -/
theorem setValueInOvfEnv_frame (ext : Extern Config) (key val : String)
    (g : Guest Config) (env : Env) (ps : PropertySection)
    (henv : (getOvfEnv ext g).1 = .ok env) (hps : env.Property = some ps) :
    ∃ written : List EnvProperty,
      (setValueInOvfEnv ext key val g).2.accesses =
        g.accesses ++ [Access.get "guestinfo.ovfEnv",
          Access.set "guestinfo.ovfEnv"
            (ext.MarshalManual
              { env with Property := some { Properties := written } })] ∧
      (∀ (i : Nat) (h : i < ps.Properties.length),
        ext.EqualFold (ps.Properties[i]).Key key = false →
        written[i]? = some ps.Properties[i]) ∧
      ((∃ p ∈ ps.Properties, ext.EqualFold p.Key key = true) →
        written.length = ps.Properties.length) ∧
      ((∀ p ∈ ps.Properties, ext.EqualFold p.Key key = false) →
        written = ps.Properties ++ [{ Key := key, Value := val }]) := by
  refine ⟨setValueProps ext key val ps.Properties, ?_, ?_, ?_, ?_⟩
  · rw [setValueInOvfEnv_of_env ext key val g env ps henv hps, getOvfEnv_guest]
    simp [guestSetString]
  · intro i h hi
    rw [setValueProps_eq, List.getElem?_append_left (by simpa using h)]
    simp [List.getElem?_map, List.getElem?_eq_getElem h, hi]
  · rintro ⟨p, hp, hm⟩
    have hany : ps.Properties.any (fun p => ext.EqualFold p.Key key) = true :=
      List.any_eq_true.mpr ⟨p, hp, hm⟩
    rw [setValueProps_eq]
    simp [hany]
  · intro hnone
    have hany : ps.Properties.any (fun p => ext.EqualFold p.Key key) = false := by
      rw [List.any_eq_false]
      intro p hp
      simp [hnone p hp]
    rw [setValueProps_eq]
    simp only [hany]
    have hmap : ps.Properties.map (fun p =>
        if ext.EqualFold p.Key key then { Key := p.Key, Value := val } else p) =
        ps.Properties := by
      conv_rhs => rw [← List.map_id ps.Properties]
      apply List.map_congr_left
      intro p hp
      simp [hnone p hp]
    rw [hmap]
    simp

/-- C3 at `set.ovf hostname c` on the two-property environment: `Hostname`
matches, the list keeps its length and `dns` stays in second place. -/
theorem setValueInOvfEnv_frame_witness :
    ∃ written : List EnvProperty,
      (setValueInOvfEnv memExtern "hostname" "c" (guestWith envTwo)).2.accesses =
        [Access.get "guestinfo.ovfEnv",
          Access.set "guestinfo.ovfEnv"
            (renderEnv { envTwo with Property := some { Properties := written } })] ∧
      written.length = 2 ∧ written[1]? = some ⟨"dns", "b"⟩ := by
  obtain ⟨written, hacc, hkeep, hlen, _⟩ :=
    setValueInOvfEnv_frame memExtern "hostname" "c" (guestWith envTwo) envTwo
      { Properties := [⟨"Hostname", "a"⟩, ⟨"dns", "b"⟩] } (by decide) rfl
  exact ⟨written, hacc, hlen ⟨⟨"Hostname", "a"⟩, by decide, by decide⟩,
    hkeep 1 (by decide) (by decide)⟩

/-! ## C1 -/

theorem getOvfEnv_ok (ext : Extern Config) (g : Guest Config) (sz : String) (env : Env)
    (hget : ext.ConfigString g.config "guestinfo.ovfEnv" "" = .ok sz)
    (hdec : ext.Unmarshal sz = .ok env) :
    (getOvfEnv ext g).1 = .ok env := by
  simp [getOvfEnv, guestString, hget, hdec]

/-- Reading a key that folds equal to the key just set: the first match in
the list written by `setValueInOvfEnv` carries the new value. -/
theorem getValueLoop_setValueProps (ext : Extern Config) (k v k' : String)
    (hsymm : ∀ a b, ext.EqualFold a b = ext.EqualFold b a)
    (htrans : ∀ a b c, ext.EqualFold a b = true → ext.EqualFold b c = true →
      ext.EqualFold a c = true)
    (hk : ext.EqualFold k' k = true) (ps : List EnvProperty) :
    getValueLoop ext k' (setValueProps ext k v ps) = v := by
  have hkk : ext.EqualFold k k' = true := by rw [hsymm]; exact hk
  have hsame : ∀ a : String, ext.EqualFold a k' = ext.EqualFold a k := by
    intro a
    cases h1 : ext.EqualFold a k with
    | true => exact htrans a k k' h1 hkk
    | false =>
      cases h2 : ext.EqualFold a k' with
      | false => rfl
      | true => rw [htrans a k' k h2 hk] at h1; exact h1
  rw [setValueProps_eq]
  induction ps with
  | nil => simp [getValueLoop, hkk]
  | cons p ps ih =>
    cases hp : ext.EqualFold p.Key k with
    | true => simp [getValueLoop, hp, hsame]
    | false =>
      simp only [List.map_cons, List.cons_append, List.any_cons, hp, Bool.false_or,
        getValueLoop, hsame, Bool.false_eq_true, if_false]
      simpa [hsame] using ih

/-- C1, amended: set-then-get round trip on an environment that has a
property section. When `EqualFold` is symmetric and transitive, a
successful `SetString` is read back by `String`, and the document written
decodes to an environment with the property list written, then after a
`setValueInOvfEnv k v` that returned no error, `getValueInOvfEnv k'` returns
`v` for every `k'` that folds equal to `k`. -/
theorem setValueInOvfEnv_then_get (ext : Extern Config) (k v k' : String)
    (g : Guest Config) (env : Env) (ps : PropertySection)
    (hsymm : ∀ a b, ext.EqualFold a b = ext.EqualFold b a)
    (htrans : ∀ a b c, ext.EqualFold a b = true → ext.EqualFold b c = true →
      ext.EqualFold a c = true)
    (hstore : ∀ c key val, (ext.SetString c key val).1 = none →
      ext.ConfigString (ext.SetString c key val).2 key "" = .ok val)
    (henv : (getOvfEnv ext g).1 = .ok env) (hps : env.Property = some ps)
    (hcodec : ∃ env2, ext.Unmarshal (ext.MarshalManual
        { env with
          Property := some { Properties := setValueProps ext k v ps.Properties } }) =
        .ok env2 ∧
      env2.Property = some { Properties := setValueProps ext k v ps.Properties })
    (hset : (setValueInOvfEnv ext k v g).1 = none)
    (hk : ext.EqualFold k' k = true) :
    (getValueInOvfEnv ext k' (setValueInOvfEnv ext k v g).2).1 = .ok v := by
  obtain ⟨env2, hdec, hprop2⟩ := hcodec
  rw [setValueInOvfEnv_of_env ext k v g env ps henv hps] at hset ⊢
  have hread : (getOvfEnv ext (guestSetString ext (getOvfEnv ext g).2 "guestinfo.ovfEnv"
      (ext.MarshalManual
        { env with
          Property := some { Properties := setValueProps ext k v ps.Properties } })).2).1 =
      .ok env2 := by
    apply getOvfEnv_ok ext _ _ env2 _ hdec
    exact hstore _ _ _ hset
  rw [getValueInOvfEnv_of_env ext k' _ env2 hread, hprop2]
  simp only
  rw [getValueLoop_setValueProps ext k v k' hsymm htrans hk]

theorem asciiEqualFold_symm (a b : String) : asciiEqualFold a b = asciiEqualFold b a := by
  unfold asciiEqualFold
  rw [Bool.eq_iff_iff]
  simp only [beq_iff_eq]
  exact ⟨fun h => h.symm, fun h => h.symm⟩

theorem asciiEqualFold_trans (a b c : String) (h1 : asciiEqualFold a b = true)
    (h2 : asciiEqualFold b c = true) : asciiEqualFold a c = true := by
  unfold asciiEqualFold at *
  simp only [beq_iff_eq] at *
  rw [h1, h2]

theorem memExtern_store (c : List (String × String)) (key val : String)
    (_h : (memExtern.SetString c key val).1 = none) :
    memExtern.ConfigString (memExtern.SetString c key val).2 key "" = .ok val := by
  simp [memExtern]

/-- C1, amended, at `set.ovf hostname c` then `get.ovf HOSTNAME` on the
two-property environment. -/
theorem setValueInOvfEnv_then_get_witness :
    (getValueInOvfEnv memExtern "HOSTNAME"
      (setValueInOvfEnv memExtern "hostname" "c" (guestWith envTwo)).2).1 = .ok "c" :=
  setValueInOvfEnv_then_get memExtern "hostname" "c" "HOSTNAME" (guestWith envTwo) envTwo
    { Properties := [⟨"Hostname", "a"⟩, ⟨"dns", "b"⟩] }
    asciiEqualFold_symm asciiEqualFold_trans memExtern_store (by decide) rfl
    ⟨envTwoSet, by decide, by decide⟩ (by decide) (by decide)

/-- C1 as stated fails on an environment without a property section:
`guestinfo.ovfEnv` holds an environment that decodes, `set.ovf hostname c`
returns no error and writes nothing, and the following `get.ovf hostname`
returns the empty string, not `c`. -/
theorem setValueInOvfEnv_then_get_counterexample :
    (getOvfEnv memExtern (guestWith envNoSection)).1 = .ok envNoSection ∧
    (setValueInOvfEnv memExtern "hostname" "c" (guestWith envNoSection)).1 = none ∧
    (setValueInOvfEnv memExtern "hostname" "c" (guestWith envNoSection)).2.accesses =
      [Access.get "guestinfo.ovfEnv"] ∧
    asciiEqualFold "hostname" "hostname" = true ∧
    (getValueInOvfEnv memExtern "hostname"
      (setValueInOvfEnv memExtern "hostname" "c" (guestWith envNoSection)).2).1 = .ok "" ∧
    (getValueInOvfEnv memExtern "hostname"
      (setValueInOvfEnv memExtern "hostname" "c" (guestWith envNoSection)).2).1 ≠ .ok "c" := by
  decide

/-! ## C10 -/

theorem invalidArgs_rejects (cmdName : String) (g : Guest Config) :
    (invalidArgs cmdName g).exit = 1 ∧ (invalidArgs cmdName g).stderr ≠ [] ∧
      (invalidArgs cmdName g).guest = g := by
  simp [invalidArgs]

theorem caseGet_rejects (ext : Extern Config) (args : List String) (g : Guest Config)
    (h : args.length < 2) :
    (caseGet ext args g).exit = 1 ∧ (caseGet ext args g).stderr ≠ [] ∧
      (caseGet ext args g).guest = g := by
  simp [caseGet, h, invalidArgs]

theorem caseSet_rejects (ext : Extern Config) (args : List String)
    (stdin : Except String String) (g : Guest Config) (h : args.length < 3) :
    (caseSet ext args stdin g).exit = 1 ∧ (caseSet ext args stdin g).stderr ≠ [] ∧
      (caseSet ext args stdin g).guest = g := by
  simp [caseSet, h, invalidArgs]

theorem caseGetOvf_rejects (ext : Extern Config) (ovfFormat : String)
    (args : List String) (g : Guest Config)
    (h1 : args.length ≠ 1) (h2 : args.length ≠ 2) :
    (caseGetOvf ext ovfFormat args g).exit = 1 ∧
      (caseGetOvf ext ovfFormat args g).stderr ≠ [] ∧
      (caseGetOvf ext ovfFormat args g).guest = g := by
  simp [caseGetOvf, h1, h2, invalidArgs]

theorem caseSetOvf_rejects (ext : Extern Config) (ovfFormat : String)
    (args : List String) (stdin : Except String String) (g : Guest Config)
    (h2 : args.length ≠ 2) (h3 : args.length ≠ 3) :
    (caseSetOvf ext ovfFormat args stdin g).exit = 1 ∧
      (caseSetOvf ext ovfFormat args stdin g).stderr ≠ [] ∧
      (caseSetOvf ext ovfFormat args stdin g).guest = g := by
  simp [caseSetOvf, h2, h3, invalidArgs]

theorem main_rejects (ext : Extern Config) (isVM : Except String Bool)
    (ovfFormat : String) (args : List String) (stdin : Except String String)
    (g : Guest Config) (h : ¬ acceptedForm ext ovfFormat args) :
    (main ext isVM ovfFormat args stdin g).exit = 1 ∧
      (main ext isVM ovfFormat args stdin g).stderr ≠ [] ∧
      (main ext isVM ovfFormat args stdin g).guest = g := by
  unfold acceptedForm at h
  unfold main
  rcases isVM with e | b
  · simp
  · cases b
    · simp
    · simp only []
      by_cases hlen : args.length < 1
      · simp [hlen]
      · simp only [hlen, if_false]
        cases hj : ext.EqualFold ovfFormat "json" <;>
        cases hx : ext.EqualFold ovfFormat "xml" <;>
        cases h1 : ext.EqualFold (flagArg args 0) "get" <;>
        cases h2 : ext.EqualFold (flagArg args 0) "set" <;>
        cases h3 : ext.EqualFold (flagArg args 0) "get.ovf" <;>
        cases h4 : ext.EqualFold (flagArg args 0) "set.ovf" <;>
        simp [validateCommand, validateFormat, hj, hx, h1, h2, h3, h4] at h ⊢ <;>
        first
          | exact caseGet_rejects _ _ _ (by omega)
          | exact caseSet_rejects _ _ _ _ (by omega)
          | exact caseGetOvf_rejects _ _ _ _ (by omega) (by omega)
          | exact caseSetOvf_rejects _ _ _ _ _ (by omega) (by omega)

/-- C10, amended: `main` reaches the guest channel only on the command forms
it lets through. For every format value, argument list and standard input,
when the invocation is not `get KEY ...`, `set KEY VAL ...`, `get.ovf`,
`get.ovf KEY`, `set.ovf VAL` or `set.ovf KEY VAL` (command name compared with
`EqualFold`) with a format that folds equal to `json` or `xml`, the run ends
with exit status 1 and a diagnostic on standard error, and the guest channel
is as before, with no call recorded; so a run that records a call has one of
these forms. -/
theorem main_accepts_only_forms (ext : Extern Config) (isVM : Except String Bool)
    (ovfFormat : String) (args : List String) (stdin : Except String String)
    (g : Guest Config) :
    (¬ acceptedForm ext ovfFormat args →
      (main ext isVM ovfFormat args stdin g).exit = 1 ∧
      (main ext isVM ovfFormat args stdin g).stderr ≠ [] ∧
      (main ext isVM ovfFormat args stdin g).guest.config = g.config ∧
      (main ext isVM ovfFormat args stdin g).guest.accesses = g.accesses) ∧
    ((main ext isVM ovfFormat args stdin g).guest.accesses ≠ g.accesses →
      acceptedForm ext ovfFormat args) := by
  constructor
  · intro h
    obtain ⟨h1, h2, h3⟩ := main_rejects ext isVM ovfFormat args stdin g h
    exact ⟨h1, h2, by rw [h3], by rw [h3]⟩
  · intro h
    by_contra hn
    exact h (by rw [(main_rejects ext isVM ovfFormat args stdin g hn).2.2])

/-- C10, amended, at `rpctool SET`: one argument is not a form of `set`, the
run is rejected; and at `rpctool get KEY`, which records a call. -/
theorem main_accepts_only_forms_witness :
    ((main memExtern (.ok true) "json" ["SET"] (.ok "") (guestWith envTwo)).exit = 1 ∧
      (main memExtern (.ok true) "json" ["SET"] (.ok "") (guestWith envTwo)).stderr ≠ [] ∧
      (main memExtern (.ok true) "json" ["SET"] (.ok "") (guestWith envTwo)).guest.config =
        (guestWith envTwo).config ∧
      (main memExtern (.ok true) "json" ["SET"] (.ok "") (guestWith envTwo)).guest.accesses =
        (guestWith envTwo).accesses) ∧
    acceptedForm memExtern "json" ["get", "KEY"] :=
  ⟨(main_accepts_only_forms memExtern (.ok true) "json" ["SET"] (.ok "")
      (guestWith envTwo)).1 (by unfold acceptedForm; decide),
    (main_accepts_only_forms memExtern (.ok true) "json" ["get", "KEY"] (.ok "")
      (guestWith envTwo)).2 (by decide)⟩

/-- C10 as stated fails twice. `rpctool get KEY EXTRA` is none of the
documented forms, yet the run reads `guestinfo.KEY` and exits 0; and with
`--ovf.format=JSON`, which is neither `json` nor `xml`, `rpctool get KEY`
does the same. -/
theorem main_accepts_only_forms_counterexample :
    (¬ documentedForm memExtern "json" ["get", "KEY", "EXTRA"] ∧
      (main memExtern (.ok true) "json" ["get", "KEY", "EXTRA"] (.ok "")
        (guestWith envTwo)).guest.accesses = [Access.get "guestinfo.KEY"] ∧
      (main memExtern (.ok true) "json" ["get", "KEY", "EXTRA"] (.ok "")
        (guestWith envTwo)).exit = 0) ∧
    (¬ documentedForm memExtern "JSON" ["get", "KEY"] ∧
      (main memExtern (.ok true) "JSON" ["get", "KEY"] (.ok "")
        (guestWith envTwo)).guest.accesses = [Access.get "guestinfo.KEY"] ∧
      (main memExtern (.ok true) "JSON" ["get", "KEY"] (.ok "")
        (guestWith envTwo)).exit = 0) := by
  unfold documentedForm
  decide

end Rpctool

namespace Keepalive

/-! ## The monitor test -/

theorem quietTooLong_iff (lib : Lib) (cfg : Settings) (st : State) (now : Int)
    (hmono : StrictMono lib.Seconds) :
    quietTooLong lib cfg st now = true ↔ cfg.quietTolerance ≤ now - st.lastWrite := by
  simp [quietTooLong, hmono.le_iff_le]

theorem quietTooLong_of_le (lib : Lib) (cfg : Settings) (st : State) (now : Int)
    (hmono : Monotone lib.Seconds) (h : cfg.quietTolerance ≤ now - st.lastWrite) :
    quietTooLong lib cfg st now = true := by
  simp only [quietTooLong, ge_iff_le, decide_eq_true_eq]
  exact hmono h

theorem quietTooLong_of_lt (lib : Lib) (cfg : Settings) (st : State) (now : Int)
    (hmono : StrictMono lib.Seconds) (h : now - st.lastWrite < cfg.quietTolerance) :
    quietTooLong lib cfg st now = false := by
  rw [← Bool.not_eq_true, quietTooLong_iff lib cfg st now hmono]
  omega

/-- Below the tolerance nothing is written, when `Seconds` is monotone and
tells the tolerance from one nanosecond less. -/
theorem quietTooLong_of_lt_of_sep (lib : Lib) (cfg : Settings) (st : State) (now : Int)
    (hmono : Monotone lib.Seconds)
    (hsep : lib.Seconds (cfg.quietTolerance - 1) < lib.Seconds cfg.quietTolerance)
    (h : now - st.lastWrite < cfg.quietTolerance) :
    quietTooLong lib cfg st now = false := by
  have hle : lib.Seconds (now - st.lastWrite) ≤ lib.Seconds (cfg.quietTolerance - 1) :=
    hmono (by omega)
  simp only [quietTooLong, ge_iff_le, decide_eq_false_iff_not, not_le]
  exact lt_of_le_of_lt hle hsep

theorem exactLib_sep (cfg : Settings) :
    exactLib.Seconds (cfg.quietTolerance - 1) < exactLib.Seconds cfg.quietTolerance := by
  have h : (((cfg.quietTolerance - 1 : Int)) : ℚ) < ((cfg.quietTolerance : Int) : ℚ) := by
    exact_mod_cast (by omega : cfg.quietTolerance - 1 < cfg.quietTolerance)
  simp only [exactLib]
  exact div_lt_div_of_pos_right h (by norm_num)

set_option maxRecDepth 16384

/-- At 5000 hours the `float64` seconds of the tolerance and of one
nanosecond less are the same value. -/
theorem goSeconds_long_collide :
    goSeconds 17999999999999999 = goSeconds 18000000000000000 := by
  have h : secondsBits 17999999999999999 = secondsBits 18000000000000000 := by decide
  simp [goSeconds, h]

/-- At the default five minutes the `float64` seconds of the tolerance and
of one nanosecond less differ. -/
theorem goSeconds_default_sep :
    goLib.Seconds (defaultSettings.quietTolerance - 1) <
      goLib.Seconds defaultSettings.quietTolerance := by
  have h1 : secondsBits 299999999999 = (5277655813307208, -44) := by decide
  have h2 : secondsBits 300000000000 = (5277655813324800, -44) := by decide
  simp [goLib, goSeconds, defaultSettings, float64Value, h1, h2]
  norm_num

theorem quietTooLong_long (out : List Bytes) (last : Int) :
    quietTooLong goLib longSettings { lastWrite := last, stdout := out }
      (last + 17999999999999999) = true := by
  have h : last + 17999999999999999 - last = 17999999999999999 := by omega
  simp only [quietTooLong, goLib, longSettings, h, ge_iff_le, decide_eq_true_eq]
  exact le_of_eq goSeconds_long_collide.symm

theorem exactLib_strictMono : StrictMono exactLib.Seconds := by
  intro a b h
  have h2 : (a : ℚ) < (b : ℚ) := by exact_mod_cast h
  simp only [exactLib]
  exact div_lt_div_of_pos_right h2 (by norm_num)

theorem monitorTick_lastWrite (lib : Lib) (cfg : Settings) (st : State) (now : Int) :
    (monitorTick lib cfg st now).lastWrite = st.lastWrite := by
  unfold monitorTick
  split <;> rfl

/-! ## C4 -/

/-- C4, amended: after `cmd.Run()` the wrapper's exit code is 0 when it
returned no error; when it returned an `ExitError` it is what `os.Exit`
leaves of `ExitStatus()` of the wait status, which on Linux is `n` for a
child that exited with status `n` (42 gives 42) and 255, the low eight bits
of -1, for a child that ended without exiting; and it is what `os.Exit`
leaves of 1, which is 1, for every other error. -/
theorem runExit_translation (lib : Lib) :
    runExit lib none = 0 ∧
    (∀ ws, runExit lib (some (.exitError ws)) = lib.OsExit (lib.ExitStatus ws)) ∧
    (∀ msg, runExit lib (some (.other msg)) = lib.OsExit 1) ∧
    (∀ ws, linuxExited ws = true →
      runExit exactLib (some (.exitError ws)) = ((ws / 256 % 256 : Nat) : Int)) ∧
    (∀ n : Nat, n < 256 → runExit exactLib (some (.exitError (256 * n))) = n) ∧
    (∀ ws, linuxExited ws = false → runExit exactLib (some (.exitError ws)) = 255) ∧
    (∀ msg, runExit exactLib (some (.other msg)) = 1) := by
  refine ⟨rfl, fun _ => rfl, fun _ => rfl, ?_, ?_, ?_, fun _ => rfl⟩
  · intro ws h
    simp only [runExit, exactLib, linuxExitStatus, linuxOsExit, h]
    simp only [Bool.not_true, Bool.false_eq_true, if_false]
    omega
  · intro n hn
    have h1 : linuxExited (256 * n) = true := by
      simp only [linuxExited, beq_iff_eq]
      omega
    simp only [runExit, exactLib, linuxExitStatus, linuxOsExit, h1]
    simp only [Bool.not_true, Bool.false_eq_true, if_false]
    omega
  · intro ws h
    simp only [runExit, exactLib, linuxExitStatus, linuxOsExit, h]
    rfl

/-- C4, amended, at a child that exits with status 42 and at a child killed
by signal 9. -/
theorem runExit_translation_witness :
    runExit exactLib (some (.exitError (256 * 42))) = ((42 : Nat) : Int) ∧
    runExit exactLib (some (.exitError 9)) = 255 :=
  ⟨(runExit_translation exactLib).2.2.2.2.1 42 (by decide),
    (runExit_translation exactLib).2.2.2.2.2.1 9 (by decide)⟩

/-- C4 as stated fails for a child that a signal ended: `cmd.Run()` returns
an `ExitError` whose wait status (9, killed by signal 9) is not an exit,
`ExitStatus()` is -1, the wrapper calls `os.Exit(-1)` and its exit code is
255, not 1. -/
theorem runExit_translation_counterexample :
    linuxExited 9 = false ∧
    linuxExitStatus 9 = -1 ∧
    runExit exactLib (some (.exitError 9)) = 255 ∧
    runExit exactLib (some (.exitError 9)) ≠ 1 ∧
    mainExit exactLib 1 (some (.exitError 9)) = 255 := by
  decide

/-! ## C5 -/

/-- C5, amended: the tick decision. With `elapsed = now - lastWrite`, one
iteration of the monitor appends the marker to the output exactly once when
`Seconds(elapsed) ≥ Seconds(quietTolerance)` and changes nothing otherwise,
whatever else the state holds. With `Seconds` monotone, the marker is
written when `elapsed ≥ quietTolerance`, equality included; and nothing is
written when `elapsed < quietTolerance`, provided `Seconds` gives one
nanosecond less than the tolerance a smaller value than the tolerance, as
the `float64` function does at the default five minutes. -/
theorem monitorTick_decision (lib : Lib) (cfg : Settings) (st : State) (now : Int)
    (hmono : Monotone lib.Seconds) :
    (monitorTick lib cfg st now =
      if lib.Seconds cfg.quietTolerance ≤ lib.Seconds (now - st.lastWrite) then
        { st with stdout := st.stdout ++ [cfg.keepAliveChars] }
      else st) ∧
    (cfg.quietTolerance ≤ now - st.lastWrite →
      monitorTick lib cfg st now =
        { st with stdout := st.stdout ++ [cfg.keepAliveChars] }) ∧
    (lib.Seconds (cfg.quietTolerance - 1) < lib.Seconds cfg.quietTolerance →
      now - st.lastWrite < cfg.quietTolerance → monitorTick lib cfg st now = st) ∧
    goLib.Seconds (defaultSettings.quietTolerance - 1) <
      goLib.Seconds defaultSettings.quietTolerance := by
  refine ⟨?_, ?_, ?_, goSeconds_default_sep⟩
  · simp [monitorTick, quietTooLong]
  · intro h
    simp [monitorTick, quietTooLong_of_le lib cfg st now hmono h]
  · intro hsep h
    simp [monitorTick, quietTooLong_of_lt_of_sep lib cfg st now hmono hsep h]

/-- C5, amended, at tolerance 10 with the last write at 0: the tick at 10
writes the marker once, the tick at 9 writes nothing. -/
theorem monitorTick_decision_witness :
    monitorTick exactLib smallSettings (initState 0) 10 =
      { lastWrite := 0, stdout := [[46]] } ∧
    monitorTick exactLib smallSettings (initState 0) 9 = initState 0 :=
  ⟨(monitorTick_decision exactLib smallSettings (initState 0) 10
      exactLib_strictMono.monotone).2.1 (by decide),
    (monitorTick_decision exactLib smallSettings (initState 0) 9
      exactLib_strictMono.monotone).2.2.1 (exactLib_sep smallSettings) (by decide)⟩

/-- C5 as stated fails at a tolerance of 5000 hours: with the last write at
0, the tick one nanosecond before the tolerance has passed finds
`elapsed < quietTolerance`, yet the `float64` seconds of the two are the same
value and the marker is written. -/
theorem monitorTick_decision_counterexample :
    (17999999999999999 : Int) - (initState 0).lastWrite < longSettings.quietTolerance ∧
    goLib.Seconds (17999999999999999 - (initState 0).lastWrite) =
      goLib.Seconds longSettings.quietTolerance ∧
    monitorTick goLib longSettings (initState 0) 17999999999999999 =
      { lastWrite := 0, stdout := [[46, 10]] } := by
  have hq := quietTooLong_long [] 0
  simp only [zero_add] at hq
  refine ⟨by decide, ?_, ?_⟩
  · simp only [initState, sub_zero, goLib, longSettings]
    exact goSeconds_long_collide
  · simp only [monitorTick, initState, hq, if_true]
    rfl

/-! ## C8 -/

/-- C8: keep-alive writes never reset the silence timer. A tick leaves
`lastWrite` as it was, whether it writes the marker or not; a step changes
`lastWrite` only when it is a child write, to that write's clock reading; so
when `Seconds` is monotone and the clock does not go back, a tick that
writes the marker is followed by a next tick that writes it too. -/
theorem keepAlive_does_not_reset (lib : Lib) (cfg : Settings) (st : State) :
    (∀ now, (monitorTick lib cfg st now).lastWrite = st.lastWrite) ∧
    (∀ now b, (ioKeepAliveWrite lib st now b).2.lastWrite = now) ∧
    (∀ e, (step lib cfg st e).lastWrite ≠ st.lastWrite →
      ∃ now b, e = Event.write now b ∧ (step lib cfg st e).lastWrite = now) ∧
    (Monotone lib.Seconds → ∀ t1 t2, t1 ≤ t2 →
      quietTooLong lib cfg st t1 = true →
      run lib cfg st [Event.tick t1, Event.tick t2] =
        { st with stdout := st.stdout ++ [cfg.keepAliveChars, cfg.keepAliveChars] }) := by
  refine ⟨monitorTick_lastWrite lib cfg st, fun _ _ => rfl, ?_, ?_⟩
  · intro e he
    cases e with
    | write now b => exact ⟨now, b, rfl, rfl⟩
    | tick now => exact absurd (monitorTick_lastWrite lib cfg st now) he
  · intro hmono t1 t2 h12 h1
    have hle : lib.Seconds (t1 - st.lastWrite) ≤ lib.Seconds (t2 - st.lastWrite) :=
      hmono (by omega)
    have h2 : quietTooLong lib cfg
        { st with stdout := st.stdout ++ [cfg.keepAliveChars] } t2 = true := by
      simp only [quietTooLong, ge_iff_le, decide_eq_true_eq] at h1 ⊢
      exact le_trans h1 hle
    simp [run, step, monitorTick, h1, h2]

/-- C8 at tolerance 10 with the last write at 0: the ticks at 10 and 20 both
write the marker. -/
theorem keepAlive_does_not_reset_witness :
    run exactLib smallSettings (initState 0) [Event.tick 10, Event.tick 20] =
      { lastWrite := 0, stdout := [[46], [46]] } :=
  (keepAlive_does_not_reset exactLib smallSettings (initState 0)).2.2.2
    exactLib_strictMono.monotone 10 20 (by decide)
    ((quietTooLong_iff exactLib smallSettings (initState 0) 10 exactLib_strictMono).mpr
      (by decide))

/-! ## C9 -/

theorem Inserted.snoc_keep {marker : Bytes} {cs out : List Bytes} (b : Bytes)
    (h : Inserted marker cs out) : Inserted marker (cs ++ [b]) (out ++ [b]) := by
  induction h with
  | nil => exact Inserted.keep b Inserted.nil
  | keep c _ ih => exact Inserted.keep c ih
  | insert _ ih => exact Inserted.insert ih

theorem Inserted.snoc_insert {marker : Bytes} {cs out : List Bytes}
    (h : Inserted marker cs out) : Inserted marker cs (out ++ [marker]) := by
  induction h with
  | nil => exact Inserted.insert Inserted.nil
  | keep c _ ih => exact Inserted.keep c ih
  | insert _ ih => exact Inserted.insert ih

theorem run_inserted (lib : Lib) (cfg : Settings) (events : List Event) :
    ∀ (st : State) (cs : List Bytes), Inserted cfg.keepAliveChars cs st.stdout →
      Inserted cfg.keepAliveChars (cs ++ childWrites events)
        (run lib cfg st events).stdout := by
  induction events with
  | nil => intro st cs h; simpa [run, childWrites] using h
  | cons e es ih =>
    intro st cs h
    cases e with
    | write now b =>
      have h1 := ih (step lib cfg st (.write now b)) (cs ++ [b])
        (by simpa [step, ioKeepAliveWrite] using Inserted.snoc_keep b h)
      simpa [run, childWrites] using h1
    | tick now =>
      have hs : Inserted cfg.keepAliveChars cs (step lib cfg st (.tick now)).stdout := by
        simp only [step, monitorTick]
        split
        · exact Inserted.snoc_insert h
        · exact h
      simpa [run, childWrites] using ih _ cs hs

/-- C9: child output passes through unmodified. For every sequence of child
writes and monitor ticks, the chunks handed to standard output are the
chunks the child wrote, in their order, with zero or more whole marker
chunks inserted; and `ioKeepAlive.Write(b)` hands exactly `b` to standard
output and returns what that write returned. -/
theorem child_output_passes_through (lib : Lib) (cfg : Settings) (start : Int)
    (events : List Event) :
    Inserted cfg.keepAliveChars (childWrites events)
      (run lib cfg (initState start) events).stdout ∧
    (∀ st now b, (ioKeepAliveWrite lib st now b).2.stdout = st.stdout ++ [b] ∧
      (ioKeepAliveWrite lib st now b).1 = lib.StdoutWrite st.stdout b) := by
  refine ⟨?_, fun _ _ _ => ⟨rfl, rfl⟩⟩
  simpa using run_inserted lib cfg events (initState start) [] Inserted.nil

/-! ## C6 -/

theorem run_cons (lib : Lib) (cfg : Settings) (st : State) (e : Event)
    (es : List Event) : run lib cfg st (e :: es) = run lib cfg (step lib cfg st e) es :=
  rfl

/-- When the gaps up to the end of the run are below `T` and the clock does
not go back, the clock reading reached is less than `T` after the last
child write. -/
theorem gapsToEnd_cur (T : Int) (rest : List Event) :
    ∀ (last cur : Int), (∀ e ∈ rest, cur ≤ e.time) →
      List.Pairwise (fun a b : Event => a.time ≤ b.time) rest →
      writeGapsBelowToEnd T last cur rest → cur - last < T := by
  induction rest with
  | nil => intro last cur _ _ h; exact h
  | cons e es ih =>
    intro last cur hcur hpair h
    have hce : cur ≤ e.time := hcur e (List.mem_cons_self _ _)
    cases e with
    | write now b =>
      have h1 : now - last < T := h.1
      simp only [Event.time] at hce
      omega
    | tick now =>
      simp only [Event.time] at hce
      have h1 : now - last < T :=
        ih last now (fun x hx => (List.pairwise_cons.mp hpair).1 x hx)
          (List.pairwise_cons.mp hpair).2 h
      omega

theorem run_active (lib : Lib) (cfg : Settings) (hmono : Monotone lib.Seconds)
    (hsep : lib.Seconds (cfg.quietTolerance - 1) < lib.Seconds cfg.quietTolerance)
    (events : List Event) :
    ∀ (st : State) (cur : Int),
      List.Pairwise (fun a b : Event => a.time ≤ b.time) events →
      writeGapsBelowToEnd cfg.quietTolerance st.lastWrite cur events →
      (∀ pre now post, events = pre ++ Event.tick now :: post →
        quietTooLong lib cfg (run lib cfg st pre) now = false) ∧
      (run lib cfg st events).stdout = st.stdout ++ childWrites events := by
  induction events with
  | nil =>
    intro st cur _ _
    refine ⟨?_, by simp [run, childWrites]⟩
    intro pre now post h
    cases pre <;> simp at h
  | cons e es ih =>
    intro st cur hpair h
    have hp := List.pairwise_cons.mp hpair
    cases e with
    | write t b =>
      have hrest := ih (step lib cfg st (.write t b)) t hp.2 h.2
      refine ⟨?_, ?_⟩
      · intro pre now post hsplit
        cases pre with
        | nil => simp at hsplit
        | cons x pre =>
          simp only [List.cons_append, List.cons.injEq] at hsplit
          rw [← hsplit.1, run_cons]
          exact hrest.1 pre now post hsplit.2
      · rw [run_cons, hrest.2]
        simp [step, ioKeepAliveWrite, childWrites]
    | tick t =>
      have hlt : t - st.lastWrite < cfg.quietTolerance :=
        gapsToEnd_cur cfg.quietTolerance es st.lastWrite t (fun x hx => hp.1 x hx) hp.2 h
      have hq : quietTooLong lib cfg st t = false :=
        quietTooLong_of_lt_of_sep lib cfg st t hmono hsep hlt
      have hstep : step lib cfg st (.tick t) = st := by
        simp [step, monitorTick, hq]
      have hrest := ih st t hp.2 h
      refine ⟨?_, ?_⟩
      · intro pre now post hsplit
        cases pre with
        | nil =>
          simp only [List.nil_append, List.cons.injEq, Event.tick.injEq] at hsplit
          rw [← hsplit.1]
          exact hq
        | cons x pre =>
          simp only [List.cons_append, List.cons.injEq] at hsplit
          rw [← hsplit.1, run_cons, hstep]
          exact hrest.1 pre now post hsplit.2
      · rw [run_cons, hstep, hrest.2]
        simp [childWrites]

/-- C6, amended: no filler while the child is active. When `Seconds` is
monotone and gives one nanosecond less than the tolerance a smaller value
than the tolerance, the clock does not go back, and the gaps from the start
to the first child write, between consecutive child writes, and from the
last child write to the end of the run are all strictly below the
tolerance, no tick of the run writes the marker: the output is exactly the
child's chunks. -/
theorem no_filler_while_active (lib : Lib) (cfg : Settings) (start : Int)
    (events : List Event) (hmono : Monotone lib.Seconds)
    (hsep : lib.Seconds (cfg.quietTolerance - 1) < lib.Seconds cfg.quietTolerance)
    (hclock : clockOk events)
    (hgaps : writeGapsBelowToEnd cfg.quietTolerance start start events) :
    (∀ pre now post, events = pre ++ Event.tick now :: post →
      quietTooLong lib cfg (run lib cfg (initState start) pre) now = false) ∧
    (run lib cfg (initState start) events).stdout = childWrites events := by
  have hpair : List.Pairwise (fun a b : Event => a.time ≤ b.time) events := hclock
  have h := run_active lib cfg hmono hsep events (initState start) start hpair hgaps
  refine ⟨h.1, ?_⟩
  rw [h.2]
  simp [initState]

/-- C6, amended, at tolerance 10 from start 0: writes at 1 and 9, ticks at 5
and 12, the run ending at 12; only the two child chunks are written. -/
theorem no_filler_while_active_witness :
    (run exactLib smallSettings (initState 0)
      [Event.write 1 [65], Event.tick 5, Event.write 9 [66], Event.tick 12]).stdout =
      [[65], [66]] :=
  (no_filler_while_active exactLib smallSettings 0
    [Event.write 1 [65], Event.tick 5, Event.write 9 [66], Event.tick 12]
    exactLib_strictMono.monotone (exactLib_sep smallSettings)
    (by unfold clockOk; decide)
    (by simp [writeGapsBelowToEnd, smallSettings])).2

/-- C6 as stated fails after the last child write. At tolerance 10 from
start 0 the child writes once, at 1, so every gap the claim names is below
the tolerance; the tick at 11 finds 10 elapsed and writes the marker. And
with the run ending less than the tolerance after the last write it still
fails at a tolerance of 5000 hours in `float64` seconds: the child writes at
1 and the tick one nanosecond before the tolerance has passed since then
writes the marker. -/
theorem no_filler_while_active_counterexample :
    (clockOk [Event.write 1 [65], Event.tick 11] ∧
      writeGapsBelow smallSettings.quietTolerance 0 [Event.write 1 [65], Event.tick 11] ∧
      quietTooLong exactLib smallSettings
        (run exactLib smallSettings (initState 0) [Event.write 1 [65]]) 11 = true ∧
      (run exactLib smallSettings (initState 0)
        [Event.write 1 [65], Event.tick 11]).stdout = [[65], [46]]) ∧
    (clockOk [Event.write 1 [65], Event.tick 18000000000000000] ∧
      writeGapsBelowToEnd longSettings.quietTolerance 0 0
        [Event.write 1 [65], Event.tick 18000000000000000] ∧
      (run goLib longSettings (initState 0)
        [Event.write 1 [65], Event.tick 18000000000000000]).stdout =
        [[65], [46, 10]]) := by
  have hq : quietTooLong exactLib smallSettings
      (run exactLib smallSettings (initState 0) [Event.write 1 [65]]) 11 = true :=
    (quietTooLong_iff exactLib smallSettings _ 11 exactLib_strictMono).mpr (by decide)
  refine ⟨⟨by unfold clockOk; decide, by simp [writeGapsBelow, smallSettings], hq, ?_⟩,
    by unfold clockOk; decide, by simp [writeGapsBelowToEnd, longSettings], ?_⟩
  · rw [run_cons, run_cons]
    simp only [run, List.foldl_nil, step, monitorTick]
    rw [run, List.foldl_cons, List.foldl_nil, step] at hq
    rw [if_pos hq]
    rfl
  · have hl := quietTooLong_long [[65]] 1
    have h1 : (1 : Int) + 17999999999999999 = 18000000000000000 := by decide
    rw [h1] at hl
    simp only [run, List.foldl_cons, List.foldl_nil, step, ioKeepAliveWrite, initState,
      List.nil_append, monitorTick, hl, if_true]
    rfl

/-! ## C7 -/

/-- C7, amended: bounded filler latency. With `Seconds` monotone, ticks
exactly `sleepFor` apart from the start, `0 < sleepFor ≤ quietTolerance`, and
the child's last write at `w`, at or after the start: some tick falls in
`[w + quietTolerance, w + quietTolerance + sleepFor]`, and in every state in
which the last write is still `w` that tick writes the marker. -/
theorem bounded_filler_latency (lib : Lib) (cfg : Settings) (start w : Int)
    (hmono : Monotone lib.Seconds) (hS : 0 < cfg.sleepFor)
    (hST : cfg.sleepFor ≤ cfg.quietTolerance) (hw : start ≤ w) :
    ∃ k : Nat,
      w + cfg.quietTolerance ≤ tickTime cfg start k ∧
      tickTime cfg start k ≤ w + cfg.quietTolerance + cfg.sleepFor ∧
      ∀ st : State, st.lastWrite = w →
        monitorTick lib cfg st (tickTime cfg start k) =
          { st with stdout := st.stdout ++ [cfg.keepAliveChars] } := by
  have hd : 0 ≤ w + cfg.quietTolerance - start := by omega
  have hq0 : 0 ≤ (w + cfg.quietTolerance - start) / cfg.sleepFor :=
    Int.ediv_nonneg hd (le_of_lt hS)
  have hdiv := Int.ediv_add_emod (w + cfg.quietTolerance - start) cfg.sleepFor
  have hr0 := Int.emod_nonneg (w + cfg.quietTolerance - start) (ne_of_gt hS)
  have hr1 := Int.emod_lt_of_pos (w + cfg.quietTolerance - start) hS
  have hk : (((((w + cfg.quietTolerance - start) / cfg.sleepFor + 1).toNat : Nat)) : Int) =
      (w + cfg.quietTolerance - start) / cfg.sleepFor + 1 :=
    Int.toNat_of_nonneg (by omega)
  have hmul : ((w + cfg.quietTolerance - start) / cfg.sleepFor + 1) * cfg.sleepFor =
      cfg.sleepFor * ((w + cfg.quietTolerance - start) / cfg.sleepFor) + cfg.sleepFor := by
    ring
  have hlo : w + cfg.quietTolerance ≤
      tickTime cfg start ((w + cfg.quietTolerance - start) / cfg.sleepFor + 1).toNat := by
    rw [tickTime, hk, hmul]
    omega
  refine ⟨((w + cfg.quietTolerance - start) / cfg.sleepFor + 1).toNat, hlo, ?_, ?_⟩
  · rw [tickTime, hk, hmul]
    omega
  · intro st hst
    have hq : quietTooLong lib cfg st
        (tickTime cfg start ((w + cfg.quietTolerance - start) / cfg.sleepFor + 1).toNat) =
        true :=
      quietTooLong_of_le lib cfg st _ hmono (by rw [hst]; omega)
    simp [monitorTick, hq]

/-- C7, amended, at tolerance 10, sleep 10, start 0 and the last write at 5:
a tick falls in `[15, 25]` and writes the marker. -/
theorem bounded_filler_latency_witness :
    ∃ k : Nat,
      5 + smallSettings.quietTolerance ≤ tickTime smallSettings 0 k ∧
      tickTime smallSettings 0 k ≤
        5 + smallSettings.quietTolerance + smallSettings.sleepFor ∧
      ∀ st : State, st.lastWrite = 5 →
        monitorTick exactLib smallSettings st (tickTime smallSettings 0 k) =
          { st with stdout := st.stdout ++ [smallSettings.keepAliveChars] } :=
  bounded_filler_latency exactLib smallSettings 0 5 exactLib_strictMono.monotone
    (by decide) (by decide) (by decide)

/-- C7 as stated fails twice. At tolerance 10 and sleep 10 from start 0,
with the last write at 5 and a silence of exactly 10: the only tick of the
silence is the one at 10, it finds 5 elapsed and writes nothing, and the
run up to 15 holds no marker. At sleep 0 all ticks are at the start, where
nothing has elapsed, and none writes the marker. -/
theorem bounded_filler_latency_counterexample :
    (smallSettings.sleepFor ≤ smallSettings.quietTolerance ∧
      (∀ (k : Nat) (out : List Bytes), 5 ≤ tickTime smallSettings 0 k →
        tickTime smallSettings 0 k ≤ 5 + smallSettings.quietTolerance →
        monitorTick exactLib smallSettings { lastWrite := 5, stdout := out }
          (tickTime smallSettings 0 k) = { lastWrite := 5, stdout := out }) ∧
      (run exactLib smallSettings (initState 0)
        [Event.tick (tickTime smallSettings 0 0), Event.write 5 [65],
          Event.tick (tickTime smallSettings 0 1)]).stdout = [[65]] ∧
      5 + smallSettings.quietTolerance < tickTime smallSettings 0 2) ∧
    (zeroSleepSettings.sleepFor ≤ zeroSleepSettings.quietTolerance ∧
      ∀ (k : Nat) (out : List Bytes),
        monitorTick exactLib zeroSleepSettings { lastWrite := 0, stdout := out }
          (tickTime zeroSleepSettings 0 k) = { lastWrite := 0, stdout := out }) := by
  refine ⟨⟨by decide, ?_, ?_, by decide⟩, by decide, ?_⟩
  · intro k out h1 h2
    have hq : quietTooLong exactLib smallSettings { lastWrite := 5, stdout := out }
        (tickTime smallSettings 0 k) = false := by
      apply quietTooLong_of_lt exactLib smallSettings _ _ exactLib_strictMono
      simp only [tickTime, smallSettings] at h1 h2 ⊢
      omega
    simp [monitorTick, hq]
  · have h0 : quietTooLong exactLib smallSettings { lastWrite := 0, stdout := [] }
        (tickTime smallSettings 0 0) = false :=
      quietTooLong_of_lt exactLib smallSettings _ _ exactLib_strictMono (by decide)
    have h1 : quietTooLong exactLib smallSettings { lastWrite := 5, stdout := [[65]] }
        (tickTime smallSettings 0 1) = false :=
      quietTooLong_of_lt exactLib smallSettings _ _ exactLib_strictMono (by decide)
    simp [run, step, monitorTick, ioKeepAliveWrite, h0, h1, initState]
  · intro k out
    have hq : quietTooLong exactLib zeroSleepSettings { lastWrite := 0, stdout := out }
        (tickTime zeroSleepSettings 0 k) = false := by
      apply quietTooLong_of_lt exactLib zeroSleepSettings _ _ exactLib_strictMono
      simp [tickTime, zeroSleepSettings]
    simp [monitorTick, hq]

end Keepalive
